import Mathlib

/-!
# Verification of the OD-Automation missed-lecture resolution engine

A shallow embedding, in Lean 4, of the core of the `Bloody-fangg/OD-Automation-V2`
repository: the time parsing, interval-overlap, text-normalization, fuzzy-matching and
pipeline-orchestration code.  Each definition is translated from the TypeScript source;
its doc comment records the source file and function it embeds.

Conventions used throughout:
* JavaScript strings are modelled as Lean `String` (a wrapper around `List Char`),
  and the string primitives (`trim`, `toUpperCase`, `split`, `includes`, `replace`,
  `startsWith`) are modelled character-exactly on `List Char`.
* JavaScript `NaN` results of `Number(...)` are modelled as `none : Option Int`;
  any comparison against `none` is `false`, exactly as every comparison against
  `NaN` is false in JS.
* A JavaScript runtime `TypeError` (dereferencing `undefined`) is modelled as
  `Except.error ()`; code that cannot throw lives outside the `Except` monad.
* Bounded loops (`forEach`, `filter`, `for..of`) become structural recursion; the
  few scanners whose recursion consumes a computed suffix use an explicit fuel
  argument initialized to the list length, which strictly dominates the number of
  steps, so the `fuel = 0` branch is unreachable on all calls made here.
-/

set_option autoImplicit false

namespace OdAuto

/-! ## JS string primitive models -/

/-- JS `\s` whitespace class (ASCII part): space, tab, newline, CR, VT, FF. -/
def jsWs (c : Char) : Bool :=
  decide (c = ' ') || decide (c = '\t') || decide (c = '\n') || decide (c = '\r') ||
    decide (c = '\x0b') || decide (c = '\x0c')

/-- JS `String.prototype.trim` on a char list. -/
def trimL (cs : List Char) : List Char :=
  ((cs.dropWhile jsWs).reverse.dropWhile jsWs).reverse

/-- Numeric value of a decimal digit character. -/
def digitVal (c : Char) : Nat := c.toNat - 48

/-- Decimal value of a digit string (used to model `parseInt(s, 10)` / `Number(s)`
on all-digit inputs). -/
def natOfDigits (ds : List Char) : Nat := ds.foldl (fun a c => 10 * a + digitVal c) 0

/-- JS `hay.includes(needle)` (substring containment). -/
def includesL (hay needle : List Char) : Bool :=
  needle.isPrefixOf hay ||
    match hay with
    | [] => false
    | _ :: t => includesL t needle

/-- Helper for split functions: push a char onto the first piece. -/
def prependChar (c : Char) : List (List Char) → List (List Char)
  | [] => [[c]]
  | h :: t => (c :: h) :: t

/-- JS `s.split(sep)` for a single-character separator class: every separator
character produces a cut, empty pieces are kept (exact `String.split` semantics). -/
def splitOnP (p : Char → Bool) : List Char → List (List Char)
  | [] => [[]]
  | c :: cs => if p c then [] :: splitOnP p cs else prependChar c (splitOnP p cs)

/-- Fuel-driven worker for `splitRuns`. -/
def splitRunsAux (p : Char → Bool) : Nat → List Char → List (List Char)
  | 0, _ => [[]]
  | _, [] => [[]]
  | f + 1, c :: cs =>
    if p c then [] :: splitRunsAux p f (cs.dropWhile p)
    else prependChar c (splitRunsAux p f cs)

/-- JS `s.split(/p+/)`: a maximal run of separator characters produces one cut
(empty pieces arise only at the two ends), e.g. `"a  b" ↦ ["a","b"]`,
`" a" ↦ ["", "a"]`. -/
def splitRuns (p : Char → Bool) (cs : List Char) : List (List Char) :=
  splitRunsAux p cs.length cs

/-- Fuel-driven worker for `collapseWs`. -/
def collapseWsAux : Nat → List Char → List Char
  | 0, cs => cs
  | _, [] => []
  | f + 1, c :: cs =>
    if jsWs c then ' ' :: collapseWsAux f (cs.dropWhile jsWs)
    else c :: collapseWsAux f cs

/-- JS `s.replace(/\s+/g, ' ')`: each maximal whitespace run becomes one space. -/
def collapseWs (cs : List Char) : List Char :=
  collapseWsAux cs.length cs

/-- `[A-Za-z0-9_]`, the JS `\w` class. -/
def isWordChar (c : Char) : Bool :=
  (decide ('a' ≤ c) && decide (c ≤ 'z')) || (decide ('A' ≤ c) && decide (c ≤ 'Z')) ||
    (decide ('0' ≤ c) && decide (c ≤ '9')) || decide (c = '_')

/-- JS `s.replace(pat, repl)` for a literal/alternation pattern without the `g`
flag: only the first (leftmost) occurrence is replaced, trying the listed
alternatives in regex order at each position. -/
def replFirst (pats : List (List Char)) (repl : List Char) : List Char → List Char
  | [] => []
  | c :: rest =>
    match pats.findSome? (fun p =>
        if p.isPrefixOf (c :: rest) then some ((c :: rest).drop p.length) else none) with
    | some remainder => repl ++ remainder
    | none => c :: replFirst pats repl rest

/-- Lowercase all characters of a string (JS `toLowerCase`, ASCII range). -/
def lowerS (s : String) : String := String.mk (s.data.map Char.toLower)

/-! ## Time parser (src/app/od-generator/page.tsx, first variant, lines 445-524) -/

/-- A parsed event time slot: integer minutes since midnight
(`interface TimeSlot` as used by the first od-generator variant). -/
structure TimeSlot where
  start : Int
  «end» : Int
deriving DecidableEq, Repr

/-- Syntactic match of the regex fragment `(\d{1,2}):(\d{2})` at the head of a char
list, returning the two parsed numbers and the unconsumed rest.  The two-digit-hour
pattern is tried first (greedy `\d{1,2}`); when a pattern's digit guard fails no other
alternative of the regex can match, so committing is faithful. -/
def parseHM : List Char → Option (Nat × Nat × List Char)
  | a :: b :: ':' :: c :: d :: rest =>
    if a.isDigit && b.isDigit && c.isDigit && d.isDigit then
      some (10 * digitVal a + digitVal b, 10 * digitVal c + digitVal d, rest)
    else none
  | a :: ':' :: c :: d :: rest =>
    if a.isDigit && c.isDigit && d.isDigit then
      some (digitVal a, 10 * digitVal c + digitVal d, rest)
    else none
  | _ => none

/-- The 12-hour adjustment of `parseTimeToMinutes`:
`if (period === 'PM' && hours !== 12) hours += 12; else if (period === 'AM' && hours === 12) hours = 0`. -/
def adjust12 (p : Char) (h : Nat) : Nat :=
  if p = 'P' ∧ h ≠ 12 then h + 12
  else if p = 'A' ∧ h = 12 then 0
  else h

/-- Core of `parseTimeToMinutes` after `trim().toUpperCase()`: first the 24-hour
regex `^(\d{1,2}):(\d{2})$` with a 0-23 / 0-59 range check, then the 12-hour regex
`^(\d{1,2}):(\d{2})\s*(AM|PM)$` with the standard 12↔0 / PM+12 adjustment and the
same range check; `-1` on failure. -/
def parseTimeCore (cleaned : List Char) : Int :=
  match parseHM cleaned with
  | some (h, m, rest) =>
    if rest.isEmpty then
      if h ≤ 23 ∧ m ≤ 59 then ((h * 60 + m : Nat) : Int) else -1
    else
      match rest.dropWhile jsWs with
      | [p, q] =>
        if (decide (p = 'A') || decide (p = 'P')) && decide (q = 'M') then
          if adjust12 p h ≤ 23 ∧ m ≤ 59 then ((adjust12 p h * 60 + m : Nat) : Int) else -1
        else -1
      | _ => -1
  | none => -1

/-- `function parseTimeToMinutes(timeStr: string): number` (page.tsx lines 488-524):
returns minutes from midnight, or `-1` if invalid.  The JS falsy guard
`if (!timeStr) return -1` is the empty-string test. -/
def parseTimeToMinutes (timeStr : String) : Int :=
  if timeStr.data = [] then -1
  else parseTimeCore ((trimL timeStr.data).map Char.toUpper)

/-- The seven weekday names of the `parseLectureTime` day regex. -/
def weekdays : List String :=
  ["monday", "tuesday", "wednesday", "thursday", "friday", "saturday", "sunday"]

/-- Match of `^(monday|...|sunday)\s+(.+)$` (case-insensitive) against a char list:
returns the captured day (original casing) and the remainder after the whitespace
run.  `(.+)$` requires the remainder to be nonempty and free of line terminators
(JS `.` does not match `\n`/`\r` and `$` anchors at the very end). -/
def stripWeekday (cs : List Char) : Option (String × List Char) :=
  weekdays.findSome? fun d =>
    let n := d.data.length
    let pre := cs.take n
    let post := cs.drop n
    if decide (pre.map Char.toLower = d.data) &&
        (match post with | c :: _ => jsWs c | [] => false) then
      let rest := post.dropWhile jsWs
      if !rest.isEmpty && rest.all (fun c => !(decide (c = '\n') || decide (c = '\r'))) then
        some (String.mk pre, rest)
      else none
    else none

/-- Syntactic match of `(\d{1,2}):(\d{2})` at the head of a char list, returning the
matched token text and the rest (same committed-match argument as `parseHM`). -/
def matchHMtoken : List Char → Option (List Char × List Char)
  | a :: b :: ':' :: c :: d :: rest =>
    if a.isDigit && b.isDigit && c.isDigit && d.isDigit then
      some ([a, b, ':', c, d], rest)
    else none
  | a :: ':' :: c :: d :: rest =>
    if a.isDigit && c.isDigit && d.isDigit then
      some ([a, ':', c, d], rest)
    else none
  | _ => none

/-- Result type of `parseLectureTime`. -/
structure LectureTimeInfo where
  day : Option String
  start : Int
  «end» : Int
deriving DecidableEq, Repr

/-- `function parseLectureTime(lectureTime: string)` (page.tsx lines 640-678):
optional weekday prefix, then the range regex
`^(\d{1,2}:\d{2})\s*[–\-]\s*(\d{1,2}:\d{2})$`; both endpoints go through
`parseTimeToMinutes`, and `-1` on either side yields `null`. -/
def parseLectureTime (lectureTime : String) : Option LectureTimeInfo :=
  if lectureTime.data = [] then none
  else
    let cleaned := trimL lectureTime.data
    let dayAndTime : Option String × List Char :=
      match stripWeekday cleaned with
      | some (d, rest) => (some d, rest)
      | none => (none, cleaned)
    match matchHMtoken dayAndTime.2 with
    | none => none
    | some (t1, r1) =>
      match r1.dropWhile jsWs with
      | sep :: r2 =>
        if decide (sep = '–') || decide (sep = '-') then
          match matchHMtoken (r2.dropWhile jsWs) with
          | some (t2, []) =>
            let startTime := parseTimeToMinutes (String.mk t1)
            let endTime := parseTimeToMinutes (String.mk t2)
            if startTime = -1 ∨ endTime = -1 then none
            else some ⟨dayAndTime.1, startTime, endTime⟩
          | _ => none
        else none
      | [] => none

/-- The overlap test applied to each event slot inside `hasTimeOverlap`
(page.tsx lines 624-634): `lectureTimeInfo.start < eventSlot.end &&
lectureTimeInfo.end > eventSlot.start`. -/
def overlapCheck (ls le : Int) (slot : TimeSlot) : Bool :=
  decide (ls < slot.«end») && decide (le > slot.start)

/-- `function hasTimeOverlap(lectureTime, eventSlots, eventDay)` (page.tsx lines
605-634): parse the lecture time, gate on the (optional) day case-insensitively,
then test overlap against any event slot. -/
def hasTimeOverlap (lectureTime : String) (eventSlots : List TimeSlot)
    (eventDay : String) : Bool :=
  if lectureTime.data = [] ∨ eventSlots.isEmpty then false
  else
    match parseLectureTime lectureTime with
    | none => false
    | some info =>
      match info.day with
      | some d =>
        if lowerS d ≠ lowerS eventDay then false
        else eventSlots.any (overlapCheck info.start info.«end»)
      | none => eventSlots.any (overlapCheck info.start info.«end»)

/-- Fuel-driven worker for `splitRange`: JS `range.split(/[–\-]|to/i)` — cut at an
en-dash or hyphen, or at a case-insensitive literal `to`. -/
def splitRangeAux : Nat → List Char → List (List Char)
  | 0, _ => [[]]
  | _, [] => [[]]
  | f + 1, c :: cs =>
    if decide (c = '–') || decide (c = '-') then [] :: splitRangeAux f cs
    else if decide (c = 't') || decide (c = 'T') then
      match cs with
      | o :: rest =>
        if decide (o = 'o') || decide (o = 'O') then [] :: splitRangeAux f rest
        else prependChar c (splitRangeAux f cs)
      | [] => prependChar c (splitRangeAux f [])
    else prependChar c (splitRangeAux f cs)

/-- JS `range.split(/[–\-]|to/i)`. -/
def splitRange (cs : List Char) : List (List Char) :=
  splitRangeAux cs.length cs

/-- One iteration of the `timeRanges.forEach` loop of `parseEventTimeSlots`
(page.tsx lines 458-476): split the range, trim the pieces, and push a slot iff
both endpoints parse (`!== -1`). -/
def processRange (acc : List TimeSlot) (range : List Char) : List TimeSlot :=
  match (splitRange range).map trimL with
  | p0 :: p1 :: _ =>
    if parseTimeToMinutes (String.mk p0) ≠ -1 ∧ parseTimeToMinutes (String.mk p1) ≠ -1 then
      acc ++ [⟨parseTimeToMinutes (String.mk p0), parseTimeToMinutes (String.mk p1)⟩]
    else acc
  | _ => acc

/-- `function parseEventTimeSlots(eventTime: string): TimeSlot[]` (page.tsx lines
445-481): split the raw event time on `_`, `,` or `|`, trim, and parse each range. -/
def parseEventTimeSlots (eventTime : String) : List TimeSlot :=
  if eventTime.data = [] then []
  else
    (((splitOnP (fun c => decide (c = '_') || decide (c = ',') || decide (c = '|'))
        eventTime.data).map trimL).foldl processRange [])

end OdAuto

namespace OdAuto

namespace V2

/-! ## Second pipeline variant (src/app/od-generator/page.tsx, lines 709-973,
types from src/types/od.ts).  This variant's `TimeSlot` carries raw `HH:MM`
strings; its `end` field is `undefined` at runtime whenever the raw slot text
contains no en-dash, which we model as `Option String`. -/

/-- `interface Student` (src/types/od.ts); `originalData` is omitted as it is
never read by the resolution pipeline. -/
structure Student where
  name : String
  program : String
  «section» : String
  semester : String
  group : Option String
  normalizedProgram : String
deriving DecidableEq, Repr

/-- `interface Course` (src/types/od.ts). -/
structure Course where
  subject_code : String
  subject_name : String
  faculty : String
  faculty_code : String
  day : String
  time : String
deriving DecidableEq, Repr

/-- `interface Lab` (src/types/od.ts). -/
structure Lab where
  subject_code : String
  subject_name : String
  faculty : String
  faculty_code : String
  day : String
  time : String
  group : String
deriving DecidableEq, Repr

/-- `interface Section` (src/types/od.ts). -/
structure SectionT where
  Courses : List Course
  Labs : List Lab
deriving DecidableEq, Repr

/-- `interface Program` (src/types/od.ts); `Record<string, Section>` becomes an
insertion-ordered association list, faithful to `Object.keys` enumeration. -/
structure ProgramT where
  Semester : String
  Sections : List (String × SectionT)
deriving DecidableEq, Repr

/-- `interface Timetable` (src/types/od.ts). -/
structure Timetable where
  Programs : List (String × ProgramT)
deriving DecidableEq, Repr

/-- `interface MissedLecture` (src/types/od.ts). -/
structure MissedLecture where
  subject_code : String
  subject_name : String
  faculty : String
  faculty_code : String
  time : String
  group : String
  day : String
deriving DecidableEq, Repr

/-- `StudentWithMissedLectures` — the JS object spread `{...student, missedLectures}`
modelled as a record pairing the student with the attached list. -/
structure StudentWithMissedLectures where
  student : Student
  missedLectures : List MissedLecture
deriving DecidableEq, Repr

/-- JS object property lookup `obj[key]` on an insertion-ordered association list. -/
def assocFind {α : Type} (l : List (String × α)) (key : String) : Option α :=
  (l.find? (fun kv => decide (kv.1 = key))).map Prod.snd

/-- `interface TimeSlot` as produced by this variant's `parseEventTimeSlots`
(lines 794-803): `start` is `slot.split('–')[0]`, always present; `end` is
`slot.split('–')[1]`, `undefined` (here `none`) when the slot text has no en-dash. -/
structure TimeSlot where
  start : String
  «end» : Option String
deriving DecidableEq, Repr

/-- `function parseEventTimeSlots(eventTime)` (lines 794-803):
`eventTime.split(/[_\s]+/).filter(Boolean)`, then each piece is split on `'–'`
and trimmed into a `{start, end}` pair. -/
def parseEventTimeSlots (eventTime : String) : List TimeSlot :=
  if eventTime.data = [] then []
  else
    ((splitRuns (fun c => decide (c = '_') || jsWs c) eventTime.data).filter
        (fun s => !s.isEmpty)).map fun slot =>
      { start := String.mk (((splitOnP (fun c => decide (c = '–')) slot).map trimL).headD [])
        «end» := (((splitOnP (fun c => decide (c = '–')) slot).map trimL).drop 1).head?.map
          String.mk }

/-- Model of the JS `Number(str)` conversion on the inputs that occur here:
whitespace is trimmed, the empty string is `0`, an optional sign followed by
decimal digits is the evident integer, and everything else is `NaN` (`none`).
(Fractional/exponent/hex numerals, which JS would accept, never denote valid
`HH`/`MM` components and are mapped to `none` like every other failure.) -/
def jsNumber (s : String) : Option Int :=
  match trimL s.data with
  | [] => some 0
  | '-' :: ds =>
    if !ds.isEmpty && ds.all Char.isDigit then some (-(natOfDigits ds : Int)) else none
  | '+' :: ds =>
    if !ds.isEmpty && ds.all Char.isDigit then some ((natOfDigits ds : Int)) else none
  | ds => if ds.all Char.isDigit then some ((natOfDigits ds : Int)) else none

/-- `function timeToMinutes(time)` (lines 969-972):
`const [hours, minutes] = time.split(':').map(Number); return hours * 60 + minutes`.
A missing or non-numeric component makes the result `NaN` (`none`). -/
def timeToMinutes (time : String) : Option Int :=
  match (splitOnP (fun c => decide (c = ':')) time.data).map String.mk with
  | h :: m :: _ =>
    match jsNumber h, jsNumber m with
    | some hv, some mv => some (hv * 60 + mv)
    | _, _ => none
  | _ => none

/-- `NaN`-aware `<`: false whenever either side is `NaN`. -/
def optLt (a b : Option Int) : Bool :=
  match a, b with
  | some x, some y => decide (x < y)
  | _, _ => false

/-- `NaN`-aware `>`: false whenever either side is `NaN`. -/
def optGt (a b : Option Int) : Bool :=
  match a, b with
  | some x, some y => decide (x > y)
  | _, _ => false

/-- `function isTimeOverlapping(eventSlot, lectureTime)` (lines 951-964).
`lectureTime.split('–')` destructured into `[lectureStart, lectureEnd]`; when
either `eventSlot.end` or `lectureEnd` is `undefined`, the call
`timeToMinutes(undefined)` evaluates `undefined.split(':')` and throws a
TypeError — modelled as `Except.error ()`.  Otherwise the strict half-open
overlap rule `eventStart < lectureEnd && eventEnd > lectureStart` is returned,
with all comparisons `NaN`-aware. -/
def isTimeOverlapping (eventSlot : TimeSlot) (lectureTime : String) :
    Except Unit Bool :=
  if lectureTime.data = [] then .ok false
  else
    match (splitOnP (fun c => decide (c = '–')) lectureTime.data).map trimL with
    | lectureStart :: lectureRest =>
      match eventSlot.«end» with
      | none => .error ()
      | some evEnd =>
        match lectureRest with
        | [] => .error ()
        | lectureEnd :: _ =>
          .ok (optLt (timeToMinutes eventSlot.start) (timeToMinutes (String.mk lectureEnd)) &&
            optGt (timeToMinutes evEnd) (timeToMinutes (String.mk lectureStart)))
    | [] => .ok false

/-- Consume `[^)]*\)`: drop everything up to and including the first `)`. -/
def dropUntilClose : List Char → Option (List Char)
  | [] => none
  | ')' :: r => some r
  | _ :: r => dropUntilClose r

/-- One match attempt of `\s*\([^)]*\)\s*` at the current position. -/
def parenMatch (cs : List Char) : Option (List Char) :=
  match cs.dropWhile jsWs with
  | '(' :: t =>
    match dropUntilClose t with
    | some r => some (r.dropWhile jsWs)
    | none => none
  | _ => none

/-- Fuel-driven scanner for `replace(/\s*\([^)]*\)\s*/g, '')`. -/
def spgAux : Nat → List Char → List Char
  | 0, cs => cs
  | _, [] => []
  | f + 1, c :: rest =>
    if jsWs c || decide (c = '(') then
      match parenMatch (c :: rest) with
      | some rest2 => spgAux f rest2
      | none => c :: spgAux f rest
    else c :: spgAux f rest

/-- JS `s.replace(/\s*\([^)]*\)\s*/g, '')`: delete every parenthesized group
together with the whitespace around it. -/
def stripParenGroups (cs : List Char) : List Char :=
  spgAux cs.length cs

/-- The `variations` array built for each timetable key inside `findProgramKey`
(lines 906-944), in source order: the key itself, the key without whitespace,
without parens, without parenthesized groups, and the five first-occurrence
`replace` rewrites of `b.tech`/`btech`/`cse`/`it`/`bca`. -/
def programVariations (keyLower : List Char) : List (List Char) :=
  [ keyLower,
    keyLower.filter (fun c => !jsWs c),
    keyLower.filter (fun c => !(decide (c = '(') || decide (c = ')'))),
    stripParenGroups keyLower,
    replFirst [String.data "b.tech", String.data "btech"] (String.data "btech") keyLower,
    replFirst [String.data "btech"] (String.data "b.tech") keyLower,
    replFirst [String.data "cse"] (String.data "computer science") keyLower,
    replFirst [String.data "it"] (String.data "information technology") keyLower,
    replFirst [String.data "bca"] (String.data "bachelor of computer applications") keyLower ]

/-- `function findProgramKey(normalizedProgram, timetable)` (lines 906-944):
exact case-insensitive key match first, then the fuzzy pass accepting a key as
soon as one of its variations contains, or is contained in, the normalized
program string. -/
def findProgramKey (normalizedProgram : String) (timetable : Timetable) :
    Option String :=
  match (timetable.Programs.map Prod.fst).find?
      (fun key => decide (lowerS key = lowerS normalizedProgram)) with
  | some exactMatch => some exactMatch
  | none =>
    (timetable.Programs.map Prod.fst).find? fun key =>
      (programVariations (lowerS key).data).any fun variant =>
        includesL variant (lowerS normalizedProgram).data ||
          includesL (lowerS normalizedProgram).data variant

/-- The missed-lecture record built from an overlapping course (lines 869-881);
`course.x || ''` is the identity on the string fields, and courses carry no group. -/
def mlOfCourse (eventDay : String) (course : Course) : MissedLecture :=
  { subject_code := course.subject_code
    subject_name := course.subject_name
    faculty := course.faculty
    faculty_code := course.faculty_code
    time := course.time
    group := ""
    day := eventDay }

/-- The missed-lecture record built from an overlapping lab (lines 884-896). -/
def mlOfLab (eventDay : String) (lab : Lab) : MissedLecture :=
  { subject_code := lab.subject_code
    subject_name := lab.subject_name
    faculty := lab.faculty
    faculty_code := lab.faculty_code
    time := lab.time
    group := lab.group
    day := eventDay }

/-- JS `Array.prototype.filter` with a predicate that can throw: elements are
tested left to right and the first exception aborts the whole call. -/
def jsFilterM {α : Type} (f : α → Except Unit Bool) : List α → Except Unit (List α)
  | [] => .ok []
  | x :: xs =>
    match f x with
    | .error e => .error e
    | .ok b =>
      match jsFilterM f xs with
      | .error e => .error e
      | .ok rest => .ok (if b then x :: rest else rest)

/-- The lab filter of `findMissedLecturesForStudent` (lines 850-860): an
overlapping lab is kept iff the student carries no (truthy) group or
`lab.group === `Group ${student.group}``. -/
def labGroupPred (student : Student) (eventSlot : TimeSlot) (lab : Lab) :
    Except Unit Bool :=
  match isTimeOverlapping eventSlot lab.time with
  | .error e => .error e
  | .ok ov =>
    if !ov then .ok false
    else
      match student.group with
      | some g => if g = "" then .ok true else .ok (decide (lab.group = "Group " ++ g))
      | none => .ok true

/-- The `eventSlots.forEach` loop of `findMissedLecturesForStudent` (lines
838-897): for each event slot, filter the day's courses and labs by overlap and
append the corresponding missed-lecture records. -/
def overlapLoop (student : Student) (eventDay : String) (dayCourses : List Course)
    (dayLabs : List Lab) : List TimeSlot → List MissedLecture →
      Except Unit (List MissedLecture)
  | [], acc => .ok acc
  | slot :: rest, acc =>
    match jsFilterM (fun course => isTimeOverlapping slot course.time) dayCourses with
    | .error e => .error e
    | .ok overlappingCourses =>
      match jsFilterM (labGroupPred student slot) dayLabs with
      | .error e => .error e
      | .ok overlappingLabs =>
        overlapLoop student eventDay dayCourses dayLabs rest
          (acc ++ overlappingCourses.map (mlOfCourse eventDay) ++
            overlappingLabs.map (mlOfLab eventDay))

/-- `function findMissedLecturesForStudent(student, eventSlots, eventDay, timetable)`
(lines 812-899): resolve program key, program, then section, returning the empty
list at each failed lookup; filter courses/labs to the event day; then run the
per-slot overlap loop. -/
def findMissedLecturesForStudent (student : Student) (eventSlots : List TimeSlot)
    (eventDay : String) (timetable : Timetable) : Except Unit (List MissedLecture) :=
  match findProgramKey student.normalizedProgram timetable with
  | none => .ok []
  | some programKey =>
    match assocFind timetable.Programs programKey with
    | none => .ok []
    | some program =>
      match assocFind program.Sections student.«section» with
      | none => .ok []
      | some sectionT =>
        overlapLoop student eventDay
          (sectionT.Courses.filter (fun course => decide (course.day = eventDay)))
          (sectionT.Labs.filter (fun lab => decide (lab.day = eventDay)))
          eventSlots []

/-- The `students.forEach` loop of `calculateMissedLectures` (lines 752-775):
each student is resolved in roster order and pushed with the attached
`missedLectures` list. -/
def studentLoop (eventSlots : List TimeSlot) (eventDay : String)
    (timetable : Timetable) : List Student → List StudentWithMissedLectures →
      Except Unit (List StudentWithMissedLectures)
  | [], acc => .ok acc
  | s :: rest, acc =>
    match findMissedLecturesForStudent s eventSlots eventDay timetable with
    | .error e => .error e
    | .ok missed => studentLoop eventSlots eventDay timetable rest (acc ++ [⟨s, missed⟩])

/-- `function calculateMissedLectures(students, eventTime, eventDay, timetable)`
(lines 737-787): parse the event time once, then resolve every student in roster
order. -/
def calculateMissedLectures (students : List Student) (eventTime : String)
    (eventDay : String) (timetable : Timetable) :
    Except Unit (List StudentWithMissedLectures) :=
  studentLoop (parseEventTimeSlots eventTime) eventDay timetable students []

/-- The resolvability test implicit in the early returns of
`findMissedLecturesForStudent`: a student resolves iff the program key, the
program object and the section object are all found. -/
def resolvesStudent (student : Student) (timetable : Timetable) : Bool :=
  match findProgramKey student.normalizedProgram timetable with
  | none => false
  | some programKey =>
    match assocFind timetable.Programs programKey with
    | none => false
    | some program => (assocFind program.Sections student.«section»).isSome

end V2

end OdAuto

deriving instance DecidableEq for Except

namespace OdAuto

/-! ## Concrete fixtures for the pipeline claims -/

/-- A student whose program key resolves exactly. -/
def sAsha : V2.Student :=
  ⟨"Asha", "B.Tech CSE", "Section A", "3", none, "B.Tech CSE"⟩

/-- A Monday course whose `time` string lacks the en-dash separator. -/
def courseNoDash : V2.Course := ⟨"CS101", "DSA", "Dr. Rao", "", "Monday", "09:15"⟩

/-- A timetable whose only section contains `courseNoDash`. -/
def ttThrow : V2.Timetable :=
  ⟨[("B.Tech CSE", ⟨"3", [("Section A", ⟨[courseNoDash], []⟩)]⟩)]⟩

/-- A student whose program resolves in no timetable used here. -/
def sUnres : V2.Student := ⟨"Bela", "BBA LLB", "Section A", "3", none, "BBA LLB"⟩

/-- A parametric one-program/one-section student matching `mkTT`. -/
def mkStudent (prog sec : String) (grp : Option String) : V2.Student :=
  ⟨"S", prog, sec, "1", grp, prog⟩

/-- A parametric timetable with a single program key and single section. -/
def mkTT (prog sec : String) (cs : List V2.Course) (ls : List V2.Lab) : V2.Timetable :=
  ⟨[(prog, ⟨"1", [(sec, ⟨cs, ls⟩)]⟩)]⟩

/-- A Monday lab restricted to Group 1. -/
def labG1 : V2.Lab := ⟨"CS191", "DSA Lab", "Dr. Rao", "", "Monday", "09:15–10:10", "Group 1"⟩

/-- A Monday course 09:15-10:10. -/
def courseC : V2.Course := ⟨"CS101", "DSA", "Dr. Rao", "", "Monday", "09:15–10:10"⟩

/-- Event slot 09:00-10:00. -/
def slotC : V2.TimeSlot := ⟨"09:00", some "10:00"⟩

/-- Event slot 09:30-10:30. -/
def slotC2 : V2.TimeSlot := ⟨"09:30", some "10:30"⟩

end OdAuto

namespace OdAuto

/-! ## String utilities (src/utils/stringUtils.ts) -/

/-- Fuel-driven Levenshtein recurrence.  The source fills a
`(len(b)+1) × (len(a)+1)` matrix with `matrix[i][j] = ` edit distance between the
first `j` chars of `a` and the first `i` chars of `b`, via
`min(deletion, insertion, substitution)`; this recursion computes the same
recurrence cell-by-cell (fuel bounds the depth: each call shortens the combined
length, so `fuel = |a| + |b|` never reaches the dead `0` branch). -/
def levAux : Nat → List Char → List Char → Nat
  | _, [], bs => bs.length
  | _, a :: as, [] => (a :: as).length
  | 0, _ :: _, _ :: _ => 0
  | f + 1, a :: as, b :: bs =>
    min (min (levAux f (a :: as) bs + 1) (levAux f as (b :: bs) + 1))
      (levAux f as bs + if a = b then 0 else 1)

/-- `export function levenshteinDistance(a, b)` (stringUtils.ts lines 7-33). -/
def levenshteinDistance (a b : String) : Nat :=
  levAux (a.data.length + b.data.length) a.data b.data

/-- `export function normalizeString(str)` (stringUtils.ts lines 39-46):
`str.toLowerCase().trim().replace(/\s+/g, ' ').replace(/[^\w\s]/g, '').trim()`. -/
def normalizeString (str : String) : String :=
  String.mk (trimL ((collapseWs (trimL (str.data.map Char.toLower))).filter
    (fun c => isWordChar c || jsWs c)))

/-- The normalized-edit-distance similarity `1 - distance / maxLength` used by
both fuzzy matchers (stringUtils.ts lines 69-71, parseExcel.ts lines 676-679),
computed in exact rational arithmetic. -/
def similarityQ (s1 s2 : String) : ℚ :=
  1 - (levenshteinDistance s1 s2 : ℚ) / ((max s1.data.length s2.data.length : Nat) : ℚ)

/-- `export function fuzzyMatchStrings(a, b, threshold = 0.7)` (stringUtils.ts
lines 56-74): exact match after normalization, containment in either direction,
else `similarity >= threshold`. -/
def fuzzyMatchStrings (a b : String) (threshold : ℚ) : Bool :=
  if normalizeString a = normalizeString b then true
  else if includesL (normalizeString a).data (normalizeString b).data ||
      includesL (normalizeString b).data (normalizeString a).data then true
  else decide (similarityQ (normalizeString a) (normalizeString b) ≥ threshold)

/-! ## parseExcel fuzzy matcher (src/utils/parseExcel.ts lines 640-683) -/

/-- The local `normalize` of parseExcel's `fuzzyMatch`:
`String(s || '').toLowerCase().trim().replace(/[^\w\s]/g, '').replace(/\s+/g, ' ')`
(note: special characters removed before whitespace collapsing, and no final trim,
unlike `normalizeString`). -/
def pXnormalize (s : String) : String :=
  String.mk (collapseWs ((trimL (s.data.map Char.toLower)).filter
    (fun c => isWordChar c || jsWs c)))

/-- The ordered body of `isAbbreviation(short, long)`:
`long.startsWith(short) && (long.length <= short.length + 2)`. -/
def isAbbrevCore (short long : List Char) : Bool :=
  short.isPrefixOf long && decide (long.length ≤ short.length + 2)

/-- `isAbbreviation` of parseExcel's `fuzzyMatch` (lines 668-671); the source's
self-swapping recursion executes at most once, unfolded here into its two cases. -/
def isAbbreviation (s1 s2 : List Char) : Bool :=
  if s1.length > s2.length then isAbbrevCore s2 s1 else isAbbrevCore s1 s2

/-- `function fuzzyMatch(str1, str2, threshold = 0.7)` (parseExcel.ts lines
640-683): falsy guard, normalization, exact match, shared-whole-word check
(`words2.includes(w1)` is array membership), the single-word abbreviation check,
then the Levenshtein similarity threshold.  It performs no substring-containment
test. -/
def fuzzyMatch (str1 str2 : String) (threshold : ℚ) : Bool :=
  if str1.data = [] ∨ str2.data = [] then false
  else
    if pXnormalize str1 = pXnormalize str2 then true
    else
      if (splitRuns jsWs (pXnormalize str1).data).any
            (fun w1 => (splitRuns jsWs (pXnormalize str2).data).any (fun w2 => decide (w2 = w1))) ||
          (splitRuns jsWs (pXnormalize str2).data).any
            (fun w2 => (splitRuns jsWs (pXnormalize str1).data).any (fun w1 => decide (w1 = w2))) then
        true
      else if decide ((splitRuns jsWs (pXnormalize str1).data).length = 1) &&
          decide ((splitRuns jsWs (pXnormalize str2).data).length = 1) &&
          isAbbreviation (pXnormalize str1).data (pXnormalize str2).data then
        true
      else decide (similarityQ (pXnormalize str1) (pXnormalize str2) ≥ threshold)

/-! ## Data normalizer (src/utils/normalizeData.ts) -/

/-- The static `programMappings` table of `normalizeProgram` (normalizeData.ts
lines 17-52), in source (insertion) order: the object literal's own keys.  The
unguarded JS index `programMappings[normalized]` also consults the prototype
chain, which is modelled separately via `objectProtoKeys` below. -/
def programMappings : List (String × String) :=
  [ ("btech cse", "B.Tech CSE"),
    ("b.tech cse", "B.Tech CSE"),
    ("btech computer science", "B.Tech CSE"),
    ("b.tech computer science", "B.Tech CSE"),
    ("bachelor of technology cse", "B.Tech CSE"),
    ("bachelor of technology computer science", "B.Tech CSE"),
    ("cse", "B.Tech CSE"),
    ("computer science engineering", "B.Tech CSE"),
    ("btech it", "B.Tech IT"),
    ("b.tech it", "B.Tech IT"),
    ("btech information technology", "B.Tech IT"),
    ("b.tech information technology", "B.Tech IT"),
    ("bachelor of technology it", "B.Tech IT"),
    ("bachelor of technology information technology", "B.Tech IT"),
    ("it", "B.Tech IT"),
    ("information technology", "B.Tech IT"),
    ("bca", "BCA"),
    ("bachelor of computer applications", "BCA"),
    ("bachelor in computer applications", "BCA"),
    ("bsc cs", "B.Sc CS"),
    ("b.sc cs", "B.Sc CS"),
    ("bsc computer science", "B.Sc CS"),
    ("b.sc computer science", "B.Sc CS"),
    ("bachelor of science cs", "B.Sc CS"),
    ("bachelor of science computer science", "B.Sc CS"),
    ("bsc", "B.Sc CS"),
    ("b.sc", "B.Sc CS") ]

/-- One word of the title-case fallback:
`word.charAt(0).toUpperCase() + word.slice(1).toLowerCase()` (`charAt(0)` of the
empty word is the empty string, so empty words are preserved). -/
def titleWord : List Char → List Char
  | [] => []
  | c :: rest => Char.toUpper c :: rest.map Char.toLower

/-- JS `Array.prototype.join(sep)` for a single-character separator. -/
def joinSep (sep : Char) : List (List Char) → List Char
  | [] => []
  | [w] => w
  | w :: ws => w ++ sep :: joinSep sep ws

/-- The string keys at which a plain JS object literal inherits a truthy member
from `Object.prototype` — so `programMappings[key]` is truthy although `key` is
not an own key of the table (`constructor` is the `Object` constructor function,
`__proto__` is `Object.prototype` itself, the rest are methods; all truthy). -/
def objectProtoKeys : List String :=
  ["constructor", "hasOwnProperty", "isPrototypeOf", "propertyIsEnumerable",
    "toLocaleString", "toString", "valueOf", "__proto__",
    "__defineGetter__", "__defineSetter__", "__lookupGetter__", "__lookupSetter__"]

/-- Result of `normalizeProgram`.  The JS function usually returns a string, but
its exact-lookup stage is the unguarded index
`if (programMappings[normalized]) return programMappings[normalized]`, which
consults the prototype chain: at an inherited `Object.prototype` key the truthy
inherited member — a function, or `Object.prototype` itself — is returned
instead of a string.  `protoMember k` represents that non-string value
symbolically by its key `k`. -/
inductive ProgramName where
  | str : String → ProgramName
  | protoMember : String → ProgramName
deriving DecidableEq, Repr

/-- Whether a `normalizeProgram` result is an actual string. -/
def ProgramName.isString : ProgramName → Bool
  | .str _ => true
  | .protoMember _ => false

/-- `export function normalizeProgram(program)` (normalizeData.ts lines 10-77):
falsy guard; lowercase + trim; the unguarded exact lookup
`programMappings[normalized]` — own table keys first, otherwise the truthy
inherited `Object.prototype` member for keys such as `"constructor"`, returned
as-is; then the first-hit partial (containment either direction) scan over
`Object.entries` (own entries only) in insertion order; finally the title-case
fallback on the raw input (`split(' ')`, per-word recasing, `join(' ')`). -/
def normalizeProgram (program : String) : ProgramName :=
  if program.data = [] then .str ""
  else
    match programMappings.find?
        (fun kv => decide (kv.1.data = trimL (program.data.map Char.toLower))) with
    | some kv => .str kv.2
    | none =>
      if objectProtoKeys.contains (String.mk (trimL (program.data.map Char.toLower))) then
        .protoMember (String.mk (trimL (program.data.map Char.toLower)))
      else
        match programMappings.find? (fun kv =>
            includesL (trimL (program.data.map Char.toLower)) kv.1.data ||
              includesL kv.1.data (trimL (program.data.map Char.toLower))) with
        | some kv => .str kv.2
        | none =>
          .str (String.mk (joinSep ' '
            (((splitOnP (fun c => decide (c = ' '))) program.data).map titleWord)))

/-- The `^[A-Z]$` single-uppercase-letter test of `normalizeSection`. -/
def isSingleUpper : List Char → Bool
  | [c] => decide ('A' ≤ c) && decide (c ≤ 'Z')
  | _ => false

/-- `export function normalizeSection(section)` (normalizeData.ts lines 84-104):
falsy guard; `trim().toUpperCase()`; single letter gets the `"Section "` label;
a `SEC` prefix is rewritten by `replace('SEC', 'Section')` (first occurrence —
the prefix itself); anything not already starting with `SECTION` gets the label;
otherwise returned unchanged. -/
def normalizeSection (sectionStr : String) : String :=
  if sectionStr.data = [] then ""
  else
    if isSingleUpper ((trimL sectionStr.data).map Char.toUpper) then
      String.mk ("Section ".data ++ (trimL sectionStr.data).map Char.toUpper)
    else if "SEC".data.isPrefixOf ((trimL sectionStr.data).map Char.toUpper) then
      String.mk (replFirst ["SEC".data] "Section".data
        ((trimL sectionStr.data).map Char.toUpper))
    else if !("SECTION".data.isPrefixOf ((trimL sectionStr.data).map Char.toUpper)) then
      String.mk ("Section ".data ++ (trimL sectionStr.data).map Char.toUpper)
    else String.mk ((trimL sectionStr.data).map Char.toUpper)

end OdAuto

namespace OdAuto

/-- The bound every parsed event slot endpoint satisfies. -/
def slotInRange (slot : TimeSlot) : Prop :=
  0 ≤ slot.start ∧ slot.start < 1440 ∧ 0 ≤ slot.«end» ∧ slot.«end» < 1440

/-- Canonical two-digit rendering `HH:MM` of an hour/minute pair. -/
def render2 (h m : Nat) : String :=
  String.mk [Nat.digitChar (h / 10), Nat.digitChar (h % 10), ':',
    Nat.digitChar (m / 10), Nat.digitChar (m % 10)]

/-- The ASCII letters, the inputs meant by "single-letter input" in the section
normalizer's contract. -/
def asciiLetters : List Char :=
  "abcdefghijklmnopqrstuvwxyzABCDEFGHIJKLMNOPQRSTUVWXYZ".data

end OdAuto

namespace OdAuto

/-! ## Range facts about the time parser -/

/-- Every successful `parseTimeToMinutes` result is a minute count in `[0, 1440)`;
every failure is the sentinel `-1` (the function is total: it never throws). -/
theorem parseTimeToMinutes_range (s : String) :
    parseTimeToMinutes s = -1 ∨
      (0 ≤ parseTimeToMinutes s ∧ parseTimeToMinutes s < 1440) := by
  unfold parseTimeToMinutes parseTimeCore
  split
  · exact Or.inl rfl
  · split
    · split
      · split
        · rename_i hrange
          right
          refine ⟨Int.ofNat_nonneg _, ?_⟩
          have : _ ≤ 23 ∧ _ ≤ 59 := hrange
          omega
        · exact Or.inl rfl
      · split
        · split
          · split
            · rename_i hrange
              right
              refine ⟨Int.ofNat_nonneg _, ?_⟩
              have : _ ≤ 23 ∧ _ ≤ 59 := hrange
              omega
            · exact Or.inl rfl
          · exact Or.inl rfl
        · exact Or.inl rfl
    · exact Or.inl rfl

/-- A non-sentinel `parseTimeToMinutes` result lies in `[0, 1440)`. -/
theorem parseTimeToMinutes_ok (x : String) (h : parseTimeToMinutes x ≠ -1) :
    0 ≤ parseTimeToMinutes x ∧ parseTimeToMinutes x < 1440 :=
  (parseTimeToMinutes_range x).resolve_left h

/-- The `forEach` fold of `parseEventTimeSlots` only ever appends slots whose two
endpoints came out of `parseTimeToMinutes` different from `-1`. -/
theorem foldl_processRange_bounds (rs : List (List Char)) :
    ∀ (acc : List TimeSlot), (∀ t ∈ acc, slotInRange t) →
      ∀ slot ∈ rs.foldl processRange acc, slotInRange slot := by
  induction rs with
  | nil => intro acc hacc slot hs; exact hacc _ hs
  | cons r rs ih =>
    intro acc hacc slot hs
    refine ih _ ?_ slot hs
    intro t ht
    unfold processRange at ht
    split at ht
    · split at ht
      · rename_i hne
        rcases List.mem_append.mp ht with hin | hin
        · exact hacc _ hin
        · have he := List.mem_singleton.mp hin
          subst he
          exact ⟨(parseTimeToMinutes_ok _ hne.1).1, (parseTimeToMinutes_ok _ hne.1).2,
            (parseTimeToMinutes_ok _ hne.2).1, (parseTimeToMinutes_ok _ hne.2).2⟩
      · exact hacc _ ht
    · exact hacc _ ht

end OdAuto

namespace OdAuto

namespace V2

/-! ## Pipeline lemmas -/

/-- The roster loop, when it completes, emits the accumulated records followed by
one record per remaining student, in order; and every emitted record's
`missedLectures` is exactly what `findMissedLecturesForStudent` returned for its
student. -/
theorem studentLoop_ok (es : List TimeSlot) (day : String) (tt : Timetable) :
    ∀ (l : List Student) (acc out : List StudentWithMissedLectures),
      studentLoop es day tt l acc = .ok out →
      out.map StudentWithMissedLectures.student =
        acc.map StudentWithMissedLectures.student ++ l ∧
      ∀ swm ∈ out, swm ∈ acc ∨
        findMissedLecturesForStudent swm.student es day tt = .ok swm.missedLectures := by
  intro l
  induction l with
  | nil =>
    intro acc out h
    have : acc = out := by
      simpa [studentLoop] using h
    subst this
    exact ⟨by simp, fun swm hin => Or.inl hin⟩
  | cons s rest ih =>
    intro acc out h
    unfold studentLoop at h
    rcases hf : findMissedLecturesForStudent s es day tt with e | missed
    · rw [hf] at h; cases h
    · rw [hf] at h
      obtain ⟨hmap, hmem⟩ := ih (acc ++ [⟨s, missed⟩]) out h
      constructor
      · rw [hmap]; simp
      · intro swm hin
        rcases hmem swm hin with hacc | hok
        · rcases List.mem_append.mp hacc with h1 | h1
          · exact Or.inl h1
          · have : swm = ⟨s, missed⟩ := List.mem_singleton.mp h1
            subst this
            exact Or.inr hf
        · exact Or.inr hok

/-- An early-return student (unresolvable program key, program, or section)
receives the empty missed-lecture list, with no exception. -/
theorem findMissed_unresolved (student : Student) (es : List TimeSlot) (day : String)
    (tt : Timetable) (h : resolvesStudent student tt = false) :
    findMissedLecturesForStudent student es day tt = .ok [] := by
  unfold resolvesStudent at h
  unfold findMissedLecturesForStudent
  rcases hk : findProgramKey student.normalizedProgram tt with _ | key
  · rfl
  · rw [hk] at h
    dsimp only at h ⊢
    rcases hp : assocFind tt.Programs key with _ | program
    · rfl
    · rw [hp] at h
      dsimp only at h ⊢
      rcases hs : assocFind program.Sections student.«section» with _ | sec
      · rfl
      · rw [hs] at h
        simp at h

/-- The one-program/one-section frame `mkTT` always resolves `mkStudent`'s
program key by the exact case-insensitive match. -/
theorem findProgramKey_mkTT (prog sec : String) (cs : List Course) (ls : List Lab) :
    findProgramKey prog (OdAuto.mkTT prog sec cs ls) = some prog := by
  unfold findProgramKey OdAuto.mkTT
  simp [List.find?]

/-- On the `mkStudent`/`mkTT` frame, `findMissedLecturesForStudent` reduces to the
per-slot overlap loop over the day-filtered course/lab lists. -/
theorem findMissed_mkTT (prog sec : String) (grp : Option String) (cs : List Course)
    (ls : List Lab) (eventSlots : List TimeSlot) (eventDay : String) :
    findMissedLecturesForStudent (OdAuto.mkStudent prog sec grp) eventSlots eventDay
        (OdAuto.mkTT prog sec cs ls) =
      overlapLoop (OdAuto.mkStudent prog sec grp) eventDay
        (cs.filter (fun c => decide (c.day = eventDay)))
        (ls.filter (fun l => decide (l.day = eventDay))) eventSlots [] := by
  unfold findMissedLecturesForStudent
  rw [show (OdAuto.mkStudent prog sec grp).normalizedProgram = prog from rfl,
    findProgramKey_mkTT]
  unfold OdAuto.mkTT assocFind
  simp [List.find?, OdAuto.mkStudent]

/-- With a single day-matching course and no labs, the overlap loop appends one
copy of the course's missed-lecture record for every event slot that overlaps it. -/
theorem overlapLoop_single_course (student : Student) (eventDay : String)
    (course : Course) (f : TimeSlot → Bool) :
    ∀ (slots : List TimeSlot) (acc : List MissedLecture),
      (∀ s ∈ slots, isTimeOverlapping s course.time = .ok (f s)) →
      overlapLoop student eventDay [course] [] slots acc =
        .ok (acc ++ (slots.filter f).map (fun _ => mlOfCourse eventDay course)) := by
  intro slots
  induction slots with
  | nil => intro acc h; simp [overlapLoop]
  | cons slot rest ih =>
    intro acc h
    have hs := h slot (List.mem_cons_self _ _)
    unfold overlapLoop
    simp only [jsFilterM, hs]
    rw [ih _ (fun s hmem => h s (List.mem_cons_of_mem _ hmem))]
    by_cases hf : f slot <;> simp [hf, List.filter_cons]

end V2

/-! ## Claim C3 -/

/-- C3 counterexample: the pipeline CAN throw.  A resolvable student whose
Monday course stores its time as `"09:15"` (no en-dash) drives
`timeToMinutes(undefined)` — i.e. `undefined.split(':')` — inside
`isTimeOverlapping`, a TypeError that aborts the whole batch. -/
theorem c3_counterexample :
    V2.calculateMissedLectures [sAsha] "09:15–10:10" "Monday" ttThrow = .error () := by
  decide

/-- C3 (amended): whenever `calculateMissedLectures` completes without the
TypeError (which is possible only when a consulted time string lacks the
en-dash separator), it returns exactly one output record per roster student, in
roster order, and every student whose program/section fails to resolve receives
an empty `missedLectures` list. -/
theorem c3_pipeline_amended (students : List V2.Student) (eventTime eventDay : String)
    (timetable : V2.Timetable) (out : List V2.StudentWithMissedLectures)
    (h : V2.calculateMissedLectures students eventTime eventDay timetable = .ok out) :
    out.length = students.length ∧
    out.map V2.StudentWithMissedLectures.student = students ∧
    ∀ swm ∈ out, V2.resolvesStudent swm.student timetable = false →
      swm.missedLectures = [] := by
  unfold V2.calculateMissedLectures at h
  obtain ⟨hmap, hmem⟩ := V2.studentLoop_ok _ _ _ students [] out h
  simp only [List.map_nil, List.nil_append] at hmap
  refine ⟨by rw [← hmap]; simp, hmap, ?_⟩
  intro swm hin hres
  rcases hmem swm hin with h0 | hok
  · cases h0
  · rw [V2.findMissed_unresolved _ _ _ _ hres] at hok
    exact (Except.ok.inj hok).symm

/-- Witness for C3 (amended): a one-student roster whose program resolves in no
timetable completes with one record carrying the empty missed-lecture list. -/
theorem c3_pipeline_amended_witness :
    ([⟨sUnres, []⟩] : List V2.StudentWithMissedLectures).length =
      ([sUnres] : List V2.Student).length ∧
    ([⟨sUnres, []⟩] : List V2.StudentWithMissedLectures).map
      V2.StudentWithMissedLectures.student = [sUnres] ∧
    ∀ swm ∈ ([⟨sUnres, []⟩] : List V2.StudentWithMissedLectures),
      V2.resolvesStudent swm.student ttThrow = false → swm.missedLectures = [] :=
  c3_pipeline_amended [sUnres] "09:15–10:10" "Monday" ttThrow [⟨sUnres, []⟩] (by decide)

end OdAuto

namespace OdAuto

/-! ## Fuzzy-matcher lemmas -/

/-- When the exact, token-intersection and abbreviation stages all fail,
`fuzzyMatch` is exactly the similarity-threshold test. -/
theorem fuzzyMatch_sim_stage (a b : String) (t : ℚ)
    (ha : a.data ≠ []) (hb : b.data ≠ [])
    (h1 : pXnormalize a ≠ pXnormalize b)
    (h2 : ((splitRuns jsWs (pXnormalize a).data).any
        (fun w1 => (splitRuns jsWs (pXnormalize b).data).any (fun w2 => decide (w2 = w1))) ||
      (splitRuns jsWs (pXnormalize b).data).any
        (fun w2 => (splitRuns jsWs (pXnormalize a).data).any (fun w1 => decide (w1 = w2)))) = false)
    (h3 : (decide ((splitRuns jsWs (pXnormalize a).data).length = 1) &&
        decide ((splitRuns jsWs (pXnormalize b).data).length = 1) &&
        isAbbreviation (pXnormalize a).data (pXnormalize b).data) = false) :
    fuzzyMatch a b t =
      decide (similarityQ (pXnormalize a) (pXnormalize b) ≥ t) := by
  unfold fuzzyMatch
  rw [if_neg (by simp [ha, hb])]
  rw [if_neg h1]
  rw [if_neg (by simp [h2])]
  rw [if_neg (by simp [h3])]

/-- When the exact and containment stages fail, `fuzzyMatchStrings` is exactly
the similarity-threshold test. -/
theorem fuzzyMatchStrings_sim_stage (a b : String) (t : ℚ)
    (h1 : normalizeString a ≠ normalizeString b)
    (h2 : (includesL (normalizeString a).data (normalizeString b).data ||
      includesL (normalizeString b).data (normalizeString a).data) = false) :
    fuzzyMatchStrings a b t =
      decide (similarityQ (normalizeString a) (normalizeString b) ≥ t) := by
  unfold fuzzyMatchStrings
  rw [if_neg h1]
  rw [if_neg (by simp [h2])]

/-- The Levenshtein recurrence is symmetric in its two strings (for sufficient
fuel). -/
theorem levAux_comm (fuel : Nat) : ∀ (as bs : List Char),
    as.length + bs.length ≤ fuel → levAux fuel as bs = levAux fuel bs as := by
  induction fuel with
  | zero =>
    intro as bs h
    cases as with
    | nil => cases bs with
      | nil => rfl
      | cons b bs => simp at h
    | cons a as => simp at h
  | succ f ih =>
    intro as bs h
    cases as with
    | nil => cases bs <;> simp [levAux]
    | cons a as =>
      cases bs with
      | nil => simp [levAux]
      | cons b bs =>
        have h1 : (a :: as).length + bs.length ≤ f := by
          simp only [List.length_cons] at h ⊢; omega
        have h2 : as.length + (b :: bs).length ≤ f := by
          simp only [List.length_cons] at h ⊢; omega
        have h3 : as.length + bs.length ≤ f := by
          simp only [List.length_cons] at h; omega
        simp only [levAux]
        rw [ih _ _ h1, ih _ _ h2, ih _ _ h3]
        rw [Nat.min_comm (levAux f bs (a :: as) + 1) (levAux f (b :: bs) as + 1)]
        congr 1
        by_cases hab : a = b
        · simp [hab]
        · rw [if_neg hab, if_neg (fun hba => hab hba.symm)]

/-- `levenshteinDistance` is symmetric. -/
theorem levenshteinDistance_comm (a b : String) :
    levenshteinDistance a b = levenshteinDistance b a := by
  unfold levenshteinDistance
  rw [Nat.add_comm b.data.length a.data.length]
  exact levAux_comm _ _ _ (Nat.le_refl _)

/-- The normalized similarity is symmetric. -/
theorem similarityQ_comm (s1 s2 : String) : similarityQ s1 s2 = similarityQ s2 s1 := by
  unfold similarityQ
  rw [levenshteinDistance_comm, Nat.max_comm]

end OdAuto

namespace OdAuto

/-- The `SEC`-prefix branch applied to an already-labelled section: the first
occurrence of `SEC` inside `SECTION A` is the prefix, so the label itself is
rewritten, yielding `SectionTION A` — the reason the final return-unchanged
branch of `normalizeSection` is dead code. -/
theorem normalizeSection_mangles_labelled : normalizeSection "section a" = "SectionTION A" := by
  decide

end OdAuto

namespace OdAuto

/-! ## Claim C1 -/

/-- C1: the overlap predicate of the Overlap Engine holds iff `s1 < e2 ∧ s2 < e1`
(strict both sides), it is symmetric under swapping the two intervals,
`[0,60)` does not overlap `[60,120)`, and `[0,61)` does overlap `[60,120)`;
both the first variant (`hasTimeOverlap`) and the second variant
(`V2.isTimeOverlapping`, checked below on the corresponding time strings)
implement this rule. -/
theorem c1_overlap_predicate :
    (∀ s1 e1 s2 e2 : Int, overlapCheck s1 e1 ⟨s2, e2⟩ = true ↔ (s1 < e2 ∧ s2 < e1)) ∧
    (∀ s1 e1 s2 e2 : Int, overlapCheck s1 e1 ⟨s2, e2⟩ = overlapCheck s2 e2 ⟨s1, e1⟩) ∧
    overlapCheck 0 60 ⟨60, 120⟩ = false ∧
    overlapCheck 0 61 ⟨60, 120⟩ = true ∧
    hasTimeOverlap "00:00-01:00" [⟨60, 120⟩] "Monday" = false ∧
    hasTimeOverlap "00:00-01:01" [⟨60, 120⟩] "Monday" = true := by
  refine ⟨?_, ?_, by decide, by decide, by decide, by decide⟩
  · intro s1 e1 s2 e2
    simp [overlapCheck, and_comm]
  · intro s1 e1 s2 e2
    simp only [overlapCheck]
    exact Bool.and_comm _ _

/-! ## Claim C2 -/

/-- C2: `parseTimeToMinutes` maps every valid 24-hour `HH:MM` string
(`0 ≤ H ≤ 23`, `0 ≤ M ≤ 59`) to `H*60+M`; the 12-hour adjustments give
`"12:00 AM" ↦ 0`, `"12:00 PM" ↦ 720`, `"1:00 PM" ↦ 780`; and on every other
input it returns the sentinel `-1` rather than throwing — the function is total
and its result is always either `-1` or a minute count in `[0, 1440)`. -/
theorem c2_parseTimeToMinutes :
    (∀ h : Nat, h < 24 → ∀ m : Nat, m < 60 →
      parseTimeToMinutes (render2 h m) = ((h * 60 + m : Nat) : Int)) ∧
    parseTimeToMinutes "12:00 AM" = 0 ∧
    parseTimeToMinutes "12:00 PM" = 720 ∧
    parseTimeToMinutes "1:00 PM" = 780 ∧
    parseTimeToMinutes "25:00" = -1 ∧
    parseTimeToMinutes "13:00 PM" = -1 ∧
    parseTimeToMinutes "banana" = -1 ∧
    (∀ s : String, parseTimeToMinutes s = -1 ∨
      (0 ≤ parseTimeToMinutes s ∧ parseTimeToMinutes s < 1440)) := by
  refine ⟨by decide, by decide, by decide, by decide, by decide, by decide, by decide, ?_⟩
  exact parseTimeToMinutes_range

/-- Witness for C2: the bounded-quantifier part applied at the concrete valid
time `09:05`. -/
theorem c2_parseTimeToMinutes_witness :
    parseTimeToMinutes (render2 9 5) = ((9 * 60 + 5 : Nat) : Int) :=
  c2_parseTimeToMinutes.1 9 (by decide) 5 (by decide)

/-! ## Claim C5 -/

/-- C5 counterexample: the Time Parser performs no `start < end` check, so the
reversed range `"10:00–09:00"` produces the TimeSlot `(600, 540)` with
`start > end`, violating the claimed invariant `start < end`. -/
theorem c5_counterexample :
    parseEventTimeSlots "10:00–09:00" = [⟨600, 540⟩] ∧ ¬ ((600 : Int) < 540) := by
  refine ⟨by decide, by decide⟩

/-- C5 (amended): every TimeSlot produced by `parseEventTimeSlots` from any input
string has integer endpoints that each lie in `[0, 1440)`; the parser does not
enforce `start < end`. -/
theorem c5_slot_bounds_amended (s : String) (slot : TimeSlot)
    (hmem : slot ∈ parseEventTimeSlots s) :
    0 ≤ slot.start ∧ slot.start < 1440 ∧ 0 ≤ slot.«end» ∧ slot.«end» < 1440 := by
  unfold parseEventTimeSlots at hmem
  split at hmem
  · cases hmem
  · exact foldl_processRange_bounds _ [] (by intro t ht; cases ht) slot hmem

/-- Witness for C5 (amended), at the concrete event time `09:15–10:10`. -/
theorem c5_slot_bounds_amended_witness :
    0 ≤ (⟨555, 610⟩ : TimeSlot).start ∧ (⟨555, 610⟩ : TimeSlot).start < 1440 ∧
      0 ≤ (⟨555, 610⟩ : TimeSlot).«end» ∧ (⟨555, 610⟩ : TimeSlot).«end» < 1440 :=
  c5_slot_bounds_amended "09:15–10:10" ⟨555, 610⟩ (by decide)

end OdAuto

namespace OdAuto

/-! ## Claim C4 -/

/-- C4: lab-group partitioning.  For a student carrying a (nonempty) group `g`,
an event-overlapping lab on the event day is counted iff `lab.group` equals the
canonical string `"Group " ++ g`; a student with no group value gets every
overlapping lab; and courses are never group-filtered.  The concrete scenario:
`group="2"` against a `"Group 1"` lab yields zero entries, `group="1"` yields one. -/
theorem c4_lab_group_filter :
    (∀ (prog sec eventDay : String) (lab : V2.Lab) (slot : V2.TimeSlot) (g : String),
      g ≠ "" → lab.day = eventDay →
      V2.isTimeOverlapping slot lab.time = .ok true →
      V2.findMissedLecturesForStudent (mkStudent prog sec (some g)) [slot] eventDay
          (mkTT prog sec [] [lab]) =
        .ok (if lab.group = "Group " ++ g then [V2.mlOfLab eventDay lab] else [])) ∧
    (∀ (prog sec eventDay : String) (lab : V2.Lab) (slot : V2.TimeSlot),
      lab.day = eventDay →
      V2.isTimeOverlapping slot lab.time = .ok true →
      V2.findMissedLecturesForStudent (mkStudent prog sec none) [slot] eventDay
          (mkTT prog sec [] [lab]) = .ok [V2.mlOfLab eventDay lab]) ∧
    (∀ (prog sec eventDay : String) (course : V2.Course) (slot : V2.TimeSlot)
      (grp : Option String),
      course.day = eventDay →
      V2.isTimeOverlapping slot course.time = .ok true →
      V2.findMissedLecturesForStudent (mkStudent prog sec grp) [slot] eventDay
          (mkTT prog sec [course] []) = .ok [V2.mlOfCourse eventDay course]) ∧
    V2.findMissedLecturesForStudent (mkStudent "BCA" "Section A" (some "2")) [slotC] "Monday"
      (mkTT "BCA" "Section A" [] [labG1]) = .ok [] ∧
    V2.findMissedLecturesForStudent (mkStudent "BCA" "Section A" (some "1")) [slotC] "Monday"
      (mkTT "BCA" "Section A" [] [labG1]) = .ok [V2.mlOfLab "Monday" labG1] := by
  refine ⟨?_, ?_, ?_, by decide, by decide⟩
  · intro prog sec eventDay lab slot g hg hday hov
    rw [V2.findMissed_mkTT]
    have hpred : V2.labGroupPred (mkStudent prog sec (some g)) slot lab =
        .ok (decide (lab.group = "Group " ++ g)) := by
      unfold V2.labGroupPred
      rw [hov]
      simp [mkStudent, hg]
    simp only [List.filter_nil, List.filter_cons, List.filter_nil, hday,
      decide_True, if_true]
    simp only [V2.overlapLoop, V2.jsFilterM, hpred]
    by_cases hgr : lab.group = "Group " ++ g <;> simp [hgr]
  · intro prog sec eventDay lab slot hday hov
    rw [V2.findMissed_mkTT]
    have hpred : V2.labGroupPred (mkStudent prog sec none) slot lab = .ok true := by
      unfold V2.labGroupPred
      rw [hov]
      simp [mkStudent]
    simp only [List.filter_nil, List.filter_cons, hday, decide_True, if_true]
    simp [V2.overlapLoop, V2.jsFilterM, hpred]
  · intro prog sec eventDay course slot grp hday hov
    rw [V2.findMissed_mkTT]
    simp only [List.filter_nil, List.filter_cons, hday, decide_True, if_true]
    rw [V2.overlapLoop_single_course (mkStudent prog sec grp) eventDay course
      (fun _ => true) [slot] [] (by intro s hs; rw [List.mem_singleton.mp hs]; exact hov)]
    simp

/-- Witness for C4: the first conjunct applied to the concrete `"Group 1"` lab
against a student with `group="1"`. -/
theorem c4_lab_group_filter_witness :
    V2.findMissedLecturesForStudent (mkStudent "BCA" "Section B" (some "1")) [slotC] "Monday"
        (mkTT "BCA" "Section B" [] [labG1]) =
      .ok (if labG1.group = "Group " ++ "1" then [V2.mlOfLab "Monday" labG1] else []) :=
  c4_lab_group_filter.1 "BCA" "Section B" "Monday" labG1 slotC "1" (by decide) (by decide)
    (by decide)

/-! ## Claim C6 -/

/-- C6: a schedule entry overlapping more than one parsed event slot on the
event day is appended once per overlapping slot — the output list is the
filter-map over event slots with no deduplication by entry identity; concretely,
a course overlapping both slots of a two-slot event appears twice. -/
theorem c6_duplicate_per_slot :
    (∀ (prog sec eventDay : String) (course : V2.Course) (slots : List V2.TimeSlot)
      (f : V2.TimeSlot → Bool),
      course.day = eventDay →
      (∀ s ∈ slots, V2.isTimeOverlapping s course.time = .ok (f s)) →
      V2.findMissedLecturesForStudent (mkStudent prog sec none) slots eventDay
          (mkTT prog sec [course] []) =
        .ok ((slots.filter f).map (fun _ => V2.mlOfCourse eventDay course))) ∧
    V2.findMissedLecturesForStudent (mkStudent "BCA" "Section A" none) [slotC, slotC2]
      "Monday" (mkTT "BCA" "Section A" [courseC] []) =
      .ok [V2.mlOfCourse "Monday" courseC, V2.mlOfCourse "Monday" courseC] := by
  refine ⟨?_, by decide⟩
  intro prog sec eventDay course slots f hday hov
  rw [V2.findMissed_mkTT]
  simp only [List.filter_nil, List.filter_cons, hday, decide_True, if_true]
  rw [V2.overlapLoop_single_course (mkStudent prog sec none) eventDay course f slots [] hov]
  simp

/-- Witness for C6: the general conjunct applied to the two-slot event whose
slots both overlap the single Monday course, yielding the course twice. -/
theorem c6_duplicate_per_slot_witness :
    V2.findMissedLecturesForStudent (mkStudent "BCA" "Section C" none) [slotC, slotC2]
        "Monday" (mkTT "BCA" "Section C" [courseC] []) =
      .ok ((([slotC, slotC2].filter (fun _ => true)).map
        (fun _ => V2.mlOfCourse "Monday" courseC))) :=
  c6_duplicate_per_slot.1 "BCA" "Section C" "Monday" courseC [slotC, slotC2]
    (fun _ => true) (by decide) (by decide)

end OdAuto

namespace OdAuto

/-! ## Claim C10 -/

/-- C10: `fuzzyMatchStrings` is symmetric in its two string arguments for every
threshold — each stage (exact equality after normalization, containment in
either direction, Levenshtein-based similarity) is invariant under swapping. -/
theorem c10_fuzzyMatchStrings_comm (a b : String) (t : ℚ) :
    fuzzyMatchStrings a b t = fuzzyMatchStrings b a t := by
  unfold fuzzyMatchStrings
  refine if_congr eq_comm rfl (if_congr ?_ rfl ?_)
  · rw [Bool.or_comm]
  · rw [similarityQ_comm]

/-! ## Claim C7 -/

/-- C7 counterexample: the exact-lookup stage is the unguarded index
`programMappings[normalized]`, which consults the prototype chain, so
`normalizeProgram "constructor"` returns the inherited `Object.prototype`
constructor — a function, not a string — refuting the claim's "always returns a
non-null string". -/
theorem c7_counterexample :
    normalizeProgram "constructor" = ProgramName.protoMember "constructor" ∧
    (normalizeProgram "constructor").isString = false := by
  decide

/-- C7 (amended): `normalizeProgram` applies, in order: lowercase+trim; exact
lookup via the unguarded index `programMappings[normalized]`, whose
prototype-chain hits return the inherited non-string member; substring
containment against the table in either direction; and finally title-casing of
the raw input.  It never throws, and returns a string on every input except the
inherited `Object.prototype` keys (where it returns that inherited member).
`"btech cse"`, `"BTECH CSE"` and `"Computer Science Engineering"` agree on the
canonical label; `"my btech cse program"` exercises the containment stage,
`"mechanical engg"` the title-case fallback, `""` the falsy guard. -/
theorem c7_normalizeProgram_amended :
    normalizeProgram "btech cse" = ProgramName.str "B.Tech CSE" ∧
    normalizeProgram "BTECH CSE" = ProgramName.str "B.Tech CSE" ∧
    normalizeProgram "Computer Science Engineering" = ProgramName.str "B.Tech CSE" ∧
    normalizeProgram "btech cse" = normalizeProgram "BTECH CSE" ∧
    normalizeProgram "BTECH CSE" = normalizeProgram "Computer Science Engineering" ∧
    normalizeProgram "my btech cse program" = ProgramName.str "B.Tech CSE" ∧
    normalizeProgram "mechanical engg" = ProgramName.str "Mechanical Engg" ∧
    normalizeProgram "" = ProgramName.str "" ∧
    (∀ s : String, (normalizeProgram s).isString = true ∨
      normalizeProgram s =
        ProgramName.protoMember (String.mk (trimL (s.data.map Char.toLower)))) := by
  refine ⟨by decide, by decide, by decide, by decide, by decide, by decide, by decide,
    by decide, ?_⟩
  intro s
  unfold normalizeProgram
  split
  · exact Or.inl rfl
  · split
    · exact Or.inl rfl
    · split
      · exact Or.inr rfl
      · split
        · exact Or.inl rfl
        · exact Or.inl rfl

/-! ## Claim C9 -/

/-- A `SECTION`-prefixed string is in particular `SEC`-prefixed, so the final
`return normalized` branch of `normalizeSection` is unreachable. -/
theorem secPrefix_of_sectionPrefix (n : List Char)
    (h : "SECTION".data.isPrefixOf n) : "SEC".data.isPrefixOf n := by
  rw [List.isPrefixOf_iff_prefix] at h ⊢
  exact List.IsPrefix.trans (by decide) h

/-- C9: `normalizeSection` uppercases and trims; every single-letter input gets
the `"Section "` label in front of its uppercased letter; every input whose
normalization begins with `SEC` has that first occurrence replaced by `Section`;
every other (nonempty) input gets the `"Section "` label prefixed; and the
remaining return-unchanged branch is vacuous, since a `SECTION`-labelled input
already begins with `SEC`. -/
theorem c9_normalizeSection :
    (∀ c ∈ asciiLetters, normalizeSection (String.mk [c]) =
      String.mk ("Section ".data ++ [c.toUpper])) ∧
    (∀ s : String, "SEC".data.isPrefixOf ((trimL s.data).map Char.toUpper) →
      normalizeSection s =
        String.mk ("Section".data ++ ((trimL s.data).map Char.toUpper).drop 3)) ∧
    (∀ s : String, s.data ≠ [] →
      isSingleUpper ((trimL s.data).map Char.toUpper) = false →
      "SEC".data.isPrefixOf ((trimL s.data).map Char.toUpper) = false →
      normalizeSection s = String.mk ("Section ".data ++ (trimL s.data).map Char.toUpper)) ∧
    (∀ s : String, "SECTION".data.isPrefixOf ((trimL s.data).map Char.toUpper) →
      "SEC".data.isPrefixOf ((trimL s.data).map Char.toUpper)) := by
  refine ⟨by decide, ?_, ?_, fun s h => secPrefix_of_sectionPrefix _ h⟩
  · intro s hpre
    have hs : s.data ≠ [] := by
      intro he
      rw [he] at hpre
      simp [trimL, List.isPrefixOf] at hpre
    obtain ⟨t, ht⟩ := (List.isPrefixOf_iff_prefix.mp hpre)
    unfold normalizeSection
    rw [if_neg (by simp [hs])]
    rw [← ht]
    simp [isSingleUpper, replFirst, List.isPrefixOf]
  · intro s hs hsingle hsec
    unfold normalizeSection
    rw [if_neg (by simp [hs])]
    rw [if_neg (by simp [hsingle])]
    rw [if_neg (by simp [hsec])]
    rw [if_pos]
    simp only [Bool.not_eq_true']
    exact Bool.eq_false_iff.mpr
      (fun hsection => by rw [secPrefix_of_sectionPrefix _ hsection] at hsec; cases hsec)

/-- Witness for C9: the single-letter conjunct at `'b'`, the `SEC`-prefix
conjunct at `"sec a"`, and the label-prefix conjunct at `"3"`. -/
theorem c9_normalizeSection_witness :
    normalizeSection (String.mk ['b']) = String.mk ("Section ".data ++ ['b'.toUpper]) ∧
    normalizeSection "sec a" =
      String.mk ("Section".data ++ ((trimL ("sec a" : String).data).map Char.toUpper).drop 3) ∧
    normalizeSection "3" =
      String.mk ("Section ".data ++ (trimL ("3" : String).data).map Char.toUpper) :=
  ⟨c9_normalizeSection.1 'b' (by decide),
    c9_normalizeSection.2.1 "sec a" (by decide),
    c9_normalizeSection.2.2.1 "3" (by decide) (by decide) (by decide)⟩

end OdAuto

namespace OdAuto

/-! ## Claim C8 -/

/-- C8 counterexample: the claim asserts `fuzzyMatch("Sec", "Section")` is true,
but `fuzzyMatch` (parseExcel.ts) has no substring-containment stage: the strings
are not equal after normalization, share no whole word, fail the abbreviation
margin (`"section".length = 7 > "sec".length + 2 = 5`), and their similarity
`1 - 4/7 = 3/7` is below the `0.7` threshold, so the call returns false. -/
theorem c8_counterexample : fuzzyMatch "Sec" "Section" (7 / 10) = false := by
  rw [fuzzyMatch_sim_stage "Sec" "Section" (7 / 10) (by decide) (by decide) (by decide)
    (by decide) (by decide)]
  rw [show pXnormalize "Sec" = "sec" from by decide,
    show pXnormalize "Section" = "section" from by decide]
  apply decide_eq_false
  unfold similarityQ
  rw [show levenshteinDistance "sec" "section" = 4 from by decide,
    show (max ("sec" : String).data.length ("section" : String).data.length) = 7 from by decide]
  norm_num

/-- C8 (amended): `fuzzyMatch` returns true on exact match after normalization,
on token-level intersection, on the single-token abbreviation relation, or when
similarity reaches the threshold — but it performs no substring-containment
test; containment is a stage only of the separate `fuzzyMatchStrings`.  Hence
`fuzzyMatchStrings "Sec" "Section"` is true while `fuzzyMatch "Sec" "Section"`
is not, and `fuzzyMatch "CSE" "ECE"` and `fuzzyMatchStrings "CSE" "ECE"` are
both false. -/
theorem c8_fuzzyMatch_amended :
    (∀ (a b : String) (t : ℚ), a.data ≠ [] → b.data ≠ [] →
      pXnormalize a = pXnormalize b → fuzzyMatch a b t = true) ∧
    (∀ (a b : String) (t : ℚ) (w : List Char), a.data ≠ [] → b.data ≠ [] →
      w ∈ splitRuns jsWs (pXnormalize a).data → w ∈ splitRuns jsWs (pXnormalize b).data →
      fuzzyMatch a b t = true) ∧
    fuzzyMatchStrings "Sec" "Section" (7 / 10) = true ∧
    fuzzyMatch "secti" "section" (7 / 10) = true ∧
    fuzzyMatch "CSE" "ECE" (7 / 10) = false ∧
    fuzzyMatchStrings "CSE" "ECE" (7 / 10) = false := by
  refine ⟨?_, ?_, by decide, by decide, ?_, ?_⟩
  · intro a b t ha hb heq
    unfold fuzzyMatch
    rw [if_neg (by simp [ha, hb]), if_pos heq]
  · intro a b t w ha hb hwa hwb
    unfold fuzzyMatch
    rw [if_neg (by simp [ha, hb])]
    by_cases heq : pXnormalize a = pXnormalize b
    · rw [if_pos heq]
    · rw [if_neg heq]
      rw [if_pos]
      have : (splitRuns jsWs (pXnormalize a).data).any
          (fun w1 => (splitRuns jsWs (pXnormalize b).data).any (fun w2 => decide (w2 = w1))) =
            true := by
        refine List.any_eq_true.mpr ⟨w, hwa, ?_⟩
        exact List.any_eq_true.mpr ⟨w, hwb, by simp⟩
      simp [this]
  · rw [fuzzyMatch_sim_stage "CSE" "ECE" (7 / 10) (by decide) (by decide) (by decide)
      (by decide) (by decide)]
    rw [show pXnormalize "CSE" = "cse" from by decide,
      show pXnormalize "ECE" = "ece" from by decide]
    apply decide_eq_false
    unfold similarityQ
    rw [show levenshteinDistance "cse" "ece" = 2 from by decide,
      show (max ("cse" : String).data.length ("ece" : String).data.length) = 3 from by decide]
    norm_num
  · rw [fuzzyMatchStrings_sim_stage "CSE" "ECE" (7 / 10) (by decide) (by decide)]
    rw [show normalizeString "CSE" = "cse" from by decide,
      show normalizeString "ECE" = "ece" from by decide]
    apply decide_eq_false
    unfold similarityQ
    rw [show levenshteinDistance "cse" "ece" = 2 from by decide,
      show (max ("cse" : String).data.length ("ece" : String).data.length) = 3 from by decide]
    norm_num

/-- Witness for C8 (amended): the exact-match conjunct at `"Name"`/`"name"` and
the token-intersection conjunct at `"student name"`/`"name"`. -/
theorem c8_fuzzyMatch_amended_witness :
    fuzzyMatch "Name" "name" (7 / 10) = true ∧
    fuzzyMatch "student name" "name" (7 / 10) = true :=
  ⟨c8_fuzzyMatch_amended.1 "Name" "name" (7 / 10) (by decide) (by decide) (by decide),
    c8_fuzzyMatch_amended.2.1 "student name" "name" (7 / 10) "name".data (by decide)
      (by decide) (by decide) (by decide)⟩

end OdAuto
